import Mathlib

/-!
Verification of the metadata normalization and geolocation-coordinate
derivation engine of the exif-parser repository (the MetadataService class:
safeDivide, convertDMSToDecimal, processLocationCoordinates, cleanMetadata,
parseMetadata).

The TypeScript code operates on dynamically typed JavaScript values.  The
shallow embedding below models
- JavaScript numbers as exact fractions (structure JQ: an integer numerator
  and a natural denominator).  IEEE-754 rounding is idealized away, as is
  standard for a rational-number embedding; NaN and the infinities are
  represented by the absent case of an Option JQ (a conflation documented at
  jsDiv).  JQ is bridged to the rational numbers by JQ.toRat, and theorem
  statements about numeric values are phrased through that bridge.
- JavaScript values as the inductive JSValue (numbers, strings, booleans,
  null, undefined, arrays, plain objects, typed-array views).
- tag dictionaries as association lists, List (String × JSValue), in
  insertion order, mirroring Object.entries enumeration order.
- code that can throw as Except String; the only throw site of this engine
  is array destructuring of a non-iterable value inside safeDivide.
-/

/-- A JavaScript number modelled as an exact, not necessarily reduced
fraction num / den.  The denominator is a natural number, so the sign of the
fraction is the sign of the numerator whenever den is positive.  Every value
actually built by the embedded code has a positive denominator; theorems
that depend on numeric semantics carry that as a hypothesis where needed. -/
structure JQ where
  num : ℤ
  den : ℕ

/-- Builds a JQ from a signed numerator and a signed denominator, moving the
sign of the denominator onto the numerator. -/
def JQ.mkSigned (n : ℤ) (d : ℤ) : JQ :=
  if d < 0 then ⟨-n, (-d).toNat⟩ else ⟨n, d.toNat⟩

/-- The rational value of a JQ (0 when the denominator is 0). -/
def JQ.toRat (q : JQ) : ℚ := (q.num : ℚ) / (q.den : ℚ)

/-- Exact addition of fractions. -/
def JQ.add (a b : JQ) : JQ := ⟨a.num * b.den + b.num * a.den, a.den * b.den⟩

/-- Exact division of a fraction by a positive integer constant; models the
JavaScript divisions by the constants 60 and 3600. -/
def JQ.divConst (a : JQ) (c : ℕ) : JQ := ⟨a.num, a.den * c⟩

/-- Exact division of two fractions (callers guard against a zero divisor). -/
def JQ.div (a b : JQ) : JQ := JQ.mkSigned (a.num * b.den) (a.den * b.num)

/-- Math.abs. -/
def JQ.abs (a : JQ) : JQ := ⟨|a.num|, a.den⟩

/-- Unary minus. -/
def JQ.neg (a : JQ) : JQ := ⟨-a.num, a.den⟩

/-- The integer nearest |q| * 10 ^ k, rounding halves up; this is the digit
string ECMAScript toFixed(k) produces for the magnitude of a number
(floor (|q| * 10 ^ k + 1 / 2), computed without rational arithmetic). -/
def JQ.scaledRound (q : JQ) (k : ℕ) : ℕ :=
  (q.num.natAbs * 10 ^ k * 2 + q.den) / (q.den * 2)

/-- parseFloat(q.toFixed(6)): the value of q rounded to 6 decimal fractional
digits, halves away from zero, as an exact fraction over 10 ^ 6. -/
def JQ.roundTo6 (q : JQ) : JQ :=
  ⟨if q.num < 0 then -(q.scaledRound 6 : ℤ) else (q.scaledRound 6 : ℤ), 10 ^ 6⟩

/-- The JavaScript comparison q >= 0 for a finite number (true exactly when
the value is non-negative, given a positive denominator). -/
def JQ.geZeroB (q : JQ) : Bool := decide (0 ≤ q.num)

/-- The JavaScript comparison q > 0 (given a positive denominator). -/
def JQ.gtZeroB (q : JQ) : Bool := decide (0 < q.num)

/-- The JavaScript comparison q < c for a natural constant c (given a
positive denominator). -/
def JQ.ltConstB (q : JQ) (c : ℕ) : Bool := decide (q.num < (c : ℤ) * q.den)

/-- Left-zero-padding of a digit string to width k. -/
def padZeros (s : String) (k : ℕ) : String :=
  String.mk (List.replicate (k - s.length) '0') ++ s

/-- ECMAScript Number.prototype.toFixed(k) on a finite number: sign, then the
rounded magnitude with exactly k fractional digits. -/
def toFixedStr (q : JQ) (k : ℕ) : String :=
  let sign := if q.num < 0 then "-" else ""
  let n := q.scaledRound k
  if k = 0 then sign ++ toString n
  else sign ++ toString (n / 10 ^ k) ++ "." ++ padZeros (toString (n % 10 ^ k)) k

/-- JavaScript number-to-string conversion (template-literal interpolation)
on a finite number.  When the value has a terminating decimal expansion of
at most 17 fractional digits it is printed exactly with no trailing zeros,
matching JavaScript for the magnitudes this engine produces; otherwise we
print 17 rounded fractional digits (a documented idealization of the
shortest-round-trip printing of an IEEE double; exponent notation for very
small or large magnitudes is likewise not modelled).  No claim depends on
the string chosen in the non-terminating case beyond it differing from the
6-digit rendering. -/
def jsNumToStr (q : JQ) : String :=
  match (List.range 18).find? (fun k => (q.num * 10 ^ k) % (q.den : ℤ) == 0) with
  | some k =>
      let sign := if q.num < 0 then "-" else ""
      let n := q.num.natAbs * 10 ^ k / q.den
      if k = 0 then sign ++ toString n
      else sign ++ toString (n / 10 ^ k) ++ "." ++ padZeros (toString (n % 10 ^ k)) k
  | none => toFixedStr q 17

/-- ASCII upper-casing of one character (String.prototype.toUpperCase is
Unicode-aware; the hemisphere reference strings this engine compares against
are ASCII, so the ASCII fragment suffices). -/
def asciiUpper (c : Char) : Char :=
  if 97 ≤ c.toNat && c.toNat ≤ 122 then Char.ofNat (c.toNat - 32) else c

/-- String.prototype.toUpperCase, ASCII fragment. -/
def sToUpper (s : String) : String := String.mk (s.data.map asciiUpper)

/-- The whitespace characters String.prototype.trim removes (ASCII fragment
of the WhiteSpace / LineTerminator productions). -/
def isJsSpace (c : Char) : Bool :=
  c == ' ' || c == '\t' || c == '\n' || c == '\r' || c == '\x0b' || c == '\x0c'

/-- String.prototype.trim. -/
def sTrim (s : String) : String :=
  String.mk (((s.data.dropWhile isJsSpace).reverse.dropWhile isJsSpace).reverse)

/-- String.prototype.startsWith. -/
def sStarts (s p : String) : Bool := List.isPrefixOf p.data s.data

/-- A JavaScript value.  binview models the objects for which
ArrayBuffer.isView is true (typed arrays, carrying their numeric elements;
DataView is conflated with them).  nan models a non-finite number (NaN and
the infinities conflated; see jsDiv). -/
inductive JSValue where
  | num (q : JQ)
  | nan
  | str (s : String)
  | bool (b : Bool)
  | null
  | undefined
  | arr (elems : List JSValue)
  | obj (fields : List (String × JSValue))
  | binview (data : List JQ)

/-- The typeof operator. -/
def jsTypeof (v : JSValue) : String :=
  match v with
  | .num _ => "number"
  | .nan => "number"
  | .str _ => "string"
  | .bool _ => "boolean"
  | .null => "object"
  | .undefined => "undefined"
  | .arr _ => "object"
  | .obj _ => "object"
  | .binview _ => "object"

/-- JavaScript truthiness.  A finite number is truthy when nonzero; nan
follows NaN (falsy).  The denominator plays no role: a proper number with a
positive denominator is zero exactly when its numerator is. -/
def jsTruthy (v : JSValue) : Bool :=
  match v with
  | .num q => !(q.num == 0)
  | .nan => false
  | .str s => !(s == "")
  | .bool b => b
  | .null => false
  | .undefined => false
  | .arr _ => true
  | .obj _ => true
  | .binview _ => true

/-- The strict comparison v === null. -/
def jsIsNull (v : JSValue) : Bool :=
  match v with
  | .null => true
  | _ => false

/-- ArrayBuffer.isView. -/
def jsIsView (v : JSValue) : Bool :=
  match v with
  | .binview _ => true
  | _ => false

/-- Array.isArray. -/
def jsIsArray (v : JSValue) : Bool :=
  match v with
  | .arr _ => true
  | _ => false

/-- The elements of an array value (empty for non-arrays; only applied to
arrays by the embedded code). -/
def jsArrElems (v : JSValue) : List JSValue :=
  match v with
  | .arr es => es
  | _ => []

/-- Indexing v[i]; a missing element reads as undefined. -/
def jsIndex (v : JSValue) (i : ℕ) : JSValue := (jsArrElems v).getD i .undefined

/-- The in operator restricted to plain objects (the embedded code applies
it after a typeof === "object" check; arrays and typed arrays have no
"description" or "value" own properties). -/
def jsHasProp (v : JSValue) (f : String) : Bool :=
  match v with
  | .obj fields => fields.any (fun p => p.1 == f)
  | _ => false

/-- Property access v.f: the field value on plain objects, undefined
otherwise (the embedded code never reads properties of null or undefined,
which would throw). -/
def jsGetProp (v : JSValue) (f : String) : JSValue :=
  match v with
  | .obj fields =>
      match fields.find? (fun p => p.1 == f) with
      | some p => p.2
      | none => .undefined
  | _ => .undefined

/-- Optional chaining v?.f. -/
def jsOptChain (v : JSValue) (f : String) : JSValue :=
  match v with
  | .null => .undefined
  | .undefined => .undefined
  | _ => jsGetProp v f

/-- The || operator: the left operand if truthy, otherwise the right one. -/
def jsOr (a b : JSValue) : JSValue := if jsTruthy a then a else b

mutual

/-- JavaScript ToString on the values this engine can meet (arrays join the
recursive strings of their elements with commas, rendering null and
undefined elements as empty strings; plain objects print the default
Object.prototype tag). -/
def jsToString : JSValue → String
  | .num q => jsNumToStr q
  | .nan => "NaN"
  | .str s => s
  | .bool b => if b then "true" else "false"
  | .null => "null"
  | .undefined => "undefined"
  | .arr es => String.intercalate "," (jsToStringList es)
  | .obj _ => "[object Object]"
  | .binview ds => String.intercalate "," (ds.map (fun d => jsNumToStr d))

/-- Element-wise ToString for array joining. -/
def jsToStringList : List JSValue → List String
  | [] => []
  | e :: es =>
      (match e with
       | .null => ""
       | .undefined => ""
       | v => jsToString v) :: jsToStringList es

end

/-- Decimal digit string to natural number. -/
def digitsToNat (s : String) : ℕ :=
  s.data.foldl (fun n c => n * 10 + (c.toNat - 48)) 0

/-- ECMAScript ToNumber on strings, restricted to optionally signed decimal
integer literals (and the empty string, which converts to 0).  Fractional,
exponent, hexadecimal and infinity syntaxes are conservatively sent to the
non-finite marker; no claim depends on them. -/
def strToNumber (s : String) : Option JQ :=
  let t := sTrim s
  if t == "" then some ⟨0, 1⟩
  else
    let core := if sStarts t "-" || sStarts t "+" then t.drop 1 else t
    if core == "" then none
    else if core.data.all (fun c => c.isDigit) then
      if sStarts t "-" then some ⟨-(digitsToNat core : ℤ), 1⟩
      else some ⟨(digitsToNat core : ℤ), 1⟩
    else none

/-- ECMAScript ToNumber as used by the division operator.  Arrays, plain
objects and typed arrays coerce through their string form in JavaScript; we
conservatively send them to the non-finite marker, a conflation no claim
depends on. -/
def jsToNumber (v : JSValue) : Option JQ :=
  match v with
  | .num q => some q
  | .nan => none
  | .str s => strToNumber s
  | .bool b => some ⟨if b then 1 else 0, 1⟩
  | .null => some ⟨0, 1⟩
  | .undefined => none
  | .arr _ => none
  | .obj _ => none
  | .binview _ => none

/-- The JavaScript division a / b after ToNumber coercion.  A zero divisor
yields an infinity or NaN, both mapped to the non-finite marker. -/
def jsDiv (a b : JSValue) : Option JQ :=
  match jsToNumber a, jsToNumber b with
  | some x, some y => if y.num == 0 then none else some (JQ.div x y)
  | _, _ => none

/-- NaN-propagating addition of possibly non-finite numbers. -/
def qAddO (a b : Option JQ) : Option JQ :=
  match a, b with
  | some x, some y => some (JQ.add x y)
  | _, _ => none

/-- NaN-propagating division by a positive integer constant. -/
def qDivConstO (a : Option JQ) (c : ℕ) : Option JQ := a.map (fun q => JQ.divConst q c)

/-- A tag dictionary: tag names to JavaScript values, in insertion order. -/
abbrev MetadataData := List (String × JSValue)

/-- Dictionary property read raw[k]; a missing key reads as undefined. -/
def jsGet (o : MetadataData) (k : String) : JSValue :=
  match o.find? (fun p => p.1 == k) with
  | some p => p.2
  | none => .undefined

/-- The binding of k in the dictionary, if any. -/
def jsFind (o : MetadataData) (k : String) : Option JSValue :=
  (o.find? (fun p => p.1 == k)).map (fun p => p.2)

/-- Whether the dictionary has the key k. -/
def jsContainsKey (o : MetadataData) (k : String) : Bool :=
  o.any (fun p => p.1 == k)

/-- The assignment o[k] = v: overwrites the binding in place when the key
exists, appends otherwise (JavaScript objects keep the original insertion
position of an overwritten string key; a dictionary coming from a
JavaScript object binds each key at most once). -/
def jsSet (o : MetadataData) (k : String) (v : JSValue) : MetadataData :=
  match o with
  | [] => [(k, v)]
  | p :: rest => if p.1 == k then (k, v) :: rest else p :: jsSet rest k v

/-- The head of the Option-lifted JavaScript comparisons: q >= 0 (NaN
compares false). -/
def qGeZeroO (a : Option JQ) : Bool :=
  match a with
  | some q => q.geZeroB
  | none => false

/-- The Option-lifted comparison q > 0 (NaN compares false). -/
def qGtZeroO (a : Option JQ) : Bool :=
  match a with
  | some q => q.gtZeroB
  | none => false

/-- The Option-lifted comparison q < c (NaN compares false). -/
def qLtConstO (a : Option JQ) (c : ℕ) : Bool :=
  match a with
  | some q => q.ltConstB c
  | none => false

/-- Math.abs lifted over possibly non-finite numbers. -/
def qAbsO (a : Option JQ) : Option JQ := a.map JQ.abs

/-- toFixed(6) lifted over possibly non-finite numbers ((NaN).toFixed(6)
is the string "NaN"). -/
def toFixed6O (a : Option JQ) : String :=
  match a with
  | some q => toFixedStr q 6
  | none => "NaN"

/-- parseFloat(x.toFixed(6)) lifted over possibly non-finite numbers
(parseFloat("NaN") is NaN). -/
def roundTo6O (a : Option JQ) : Option JQ := a.map JQ.roundTo6

/-- Template-literal interpolation of a possibly non-finite number. -/
def jsNumToStrO (a : Option JQ) : String :=
  match a with
  | some q => jsNumToStr q
  | none => "NaN"

/-- A possibly non-finite number as a JSValue. -/
def optNumToJS (a : Option JQ) : JSValue :=
  match a with
  | some q => .num q
  | none => .nan

/-- The strict comparison v === 0 (NaN === 0 is false). -/
def jsStrictEqZero (v : JSValue) : Bool :=
  match v with
  | .num q => q.num == 0
  | _ => false

/-- Array destructuring const [a, b] = v.  Arrays, strings and typed arrays
are iterable (missing positions read as undefined; string iteration yields
one-character strings); numbers, booleans, null, undefined and plain
objects are not, and destructuring them throws a TypeError. -/
def jsDestructPair (v : JSValue) : Except String (JSValue × JSValue) :=
  match v with
  | .arr es => .ok (es.getD 0 .undefined, es.getD 1 .undefined)
  | .str s =>
      .ok ((s.data.get? 0).elim JSValue.undefined (fun c => .str (String.mk [c])),
           (s.data.get? 1).elim JSValue.undefined (fun c => .str (String.mk [c])))
  | .binview ds =>
      .ok ((ds.get? 0).elim JSValue.undefined (fun d => .num d),
           (ds.get? 1).elim JSValue.undefined (fun d => .num d))
  | _ => .error "TypeError: value is not iterable"

namespace MetadataService

/-- MetadataService.safeDivide: destructures [num, denom] from its argument
and returns 0 when denom === 0, num / denom otherwise.  The destructuring
throws when the argument is not iterable. -/
def safeDivide (v : JSValue) : Except String (Option JQ) := do
  let p ← jsDestructPair v
  if jsStrictEqZero p.2 then pure (some ⟨0, 1⟩) else pure (jsDiv p.1 p.2)

/-- MetadataService.convertDMSToDecimal: 0 unless the argument is an array
of exactly 3 elements, else degrees + minutes / 60 + seconds / 3600 with
each component read through safeDivide. -/
def convertDMSToDecimal (dmsArray : JSValue) : Except String (Option JQ) :=
  if !jsIsArray dmsArray || (jsArrElems dmsArray).length != 3 then .ok (some ⟨0, 1⟩)
  else do
    let degrees ← safeDivide (jsIndex dmsArray 0)
    let minutes ← safeDivide (jsIndex dmsArray 1)
    let seconds ← safeDivide (jsIndex dmsArray 2)
    pure (qAddO (qAddO degrees (qDivConstO minutes 60)) (qDivConstO seconds 3600))

/-- The processed location data: decimal coordinates (rounded to 6
fractional digits), a display string and a maps link. -/
structure LocationCoordinates where
  latitude : Option JQ
  longitude : Option JQ
  formatted : String
  mapsUrl : String

/-- The latitude hemisphere correction of processLocationCoordinates:
a normalized reference equal to "S" forces latitude to -|latitude|. -/
def correctLatitude (normalizedLatRef : String) (latitude : Option JQ) : Option JQ :=
  if normalizedLatRef == "S" then latitude.map (fun q => JQ.neg (JQ.abs q)) else latitude

/-- The longitude hemisphere correction of processLocationCoordinates:
a normalized reference starting with "W" forces longitude to -|longitude|;
otherwise an empty reference with longitude strictly between 0 and 180
applies the same negation as a fallback. -/
def correctLongitude (normalizedLonRef : String) (longitude : Option JQ) : Option JQ :=
  if sStarts normalizedLonRef "W" then longitude.map (fun q => JQ.neg (JQ.abs q))
  else if normalizedLonRef == "" && qGtZeroO longitude && qLtConstO longitude 180 then
    longitude.map (fun q => JQ.neg (JQ.abs q))
  else longitude

/-- The return block of processLocationCoordinates: direction letters from
the signs of the (pre-rounding) corrected values, rounded coordinate
fields, the formatted string from the (pre-rounding) magnitudes, and the
maps URL interpolating the (pre-rounding) signed values. -/
def buildCoordinate (latitude longitude : Option JQ) : LocationCoordinates :=
  let latDir := if qGeZeroO latitude then "N" else "S"
  let lonDir := if qGeZeroO longitude then "E" else "W"
  { latitude := roundTo6O latitude
    longitude := roundTo6O longitude
    formatted := toFixed6O (qAbsO latitude) ++ "° " ++ latDir ++ ", " ++
                 toFixed6O (qAbsO longitude) ++ "° " ++ lonDir
    mapsUrl := "https://maps.google.com/?q=" ++ jsNumToStrO latitude ++ ","
                 ++ jsNumToStrO longitude }

/-- MetadataService.processLocationCoordinates: null when a GPS tag is
missing (falsy) or a GPS value is not an array; otherwise DMS conversion,
hemisphere correction and coordinate construction. -/
def processLocationCoordinates (rawData : MetadataData) :
    Except String (Option LocationCoordinates) :=
  if !jsTruthy (jsGet rawData "GPSLatitude") || !jsTruthy (jsGet rawData "GPSLongitude") then
    .ok none
  else
    let latArray := jsGetProp (jsGet rawData "GPSLatitude") "value"
    let lonArray := jsGetProp (jsGet rawData "GPSLongitude") "value"
    let latRefRaw := jsOr (jsOr (jsOptChain (jsGet rawData "GPSLatitudeRef") "description")
                                (jsOptChain (jsGet rawData "GPSLatitudeRef") "value"))
                          (.str "")
    let lonRefRaw := jsOr (jsOr (jsOptChain (jsGet rawData "GPSLongitudeRef") "description")
                                (jsOptChain (jsGet rawData "GPSLongitudeRef") "value"))
                          (.str "")
    let normalizedLatRef := sToUpper (sTrim (jsToString latRefRaw))
    let normalizedLonRef := sToUpper (sTrim (jsToString lonRefRaw))
    if !jsIsArray latArray || !jsIsArray lonArray then .ok none
    else
      match convertDMSToDecimal latArray, convertDMSToDecimal lonArray with
      | .error e, _ => .error e
      | .ok _, .error e => .error e
      | .ok lat0, .ok lon0 =>
          .ok (some (buildCoordinate (correctLatitude normalizedLatRef lat0)
                                     (correctLongitude normalizedLonRef lon0)))

/-- The filter of cleanMetadata: keep an entry unless its key is base64 or
its value is null or a typed binary buffer view. -/
def keepEntry (key : String) (value : JSValue) : Bool :=
  key != "base64" &&
    (jsTypeof value != "object" ||
      (jsTypeof value == "object" && !jsIsNull value && !jsIsView value))

/-- The envelope unwrapping of cleanMetadata: prefer a description field,
fall back to a value field, otherwise keep the value as is. -/
def unwrapValue (value : JSValue) : JSValue :=
  if jsTruthy value && jsTypeof value == "object" && jsHasProp value "description" then
    jsGetProp value "description"
  else if jsTruthy value && jsTypeof value == "object" && jsHasProp value "value" then
    jsGetProp value "value"
  else value

/-- The LocationCoordinates object as stored into the cleaned dictionary. -/
def coordToJSValue (loc : LocationCoordinates) : JSValue :=
  .obj [("latitude", optNumToJS loc.latitude),
        ("longitude", optNumToJS loc.longitude),
        ("formatted", .str loc.formatted),
        ("mapsUrl", .str loc.mapsUrl)]

/-- MetadataService.cleanMetadata: filter binary payloads, unwrap tag
envelopes, then merge the resolved coordinates (when non-null) under the
keys GPSLatitude, GPSLongitude and GPSCoordinates. -/
def cleanMetadata (rawData : MetadataData) : Except String MetadataData :=
  let filteredData := rawData.foldl
    (fun acc kv => if keepEntry kv.1 kv.2 then jsSet acc kv.1 kv.2 else acc) []
  let cleaned := filteredData.foldl
    (fun acc kv => jsSet acc kv.1 (unwrapValue kv.2)) []
  match processLocationCoordinates rawData with
  | .error e => .error e
  | .ok none => .ok cleaned
  | .ok (some locationCoordinates) =>
      .ok (jsSet (jsSet (jsSet cleaned
              "GPSLatitude" (optNumToJS locationCoordinates.latitude))
              "GPSLongitude" (optNumToJS locationCoordinates.longitude))
              "GPSCoordinates" (coordToJSValue locationCoordinates))

/-- The raw-data preparation step of parseMetadata: drop the entry keyed
base64, keep everything else. -/
def rawDataForDisplay (tags : MetadataData) : MetadataData :=
  tags.foldl (fun acc kv => if kv.1 != "base64" then jsSet acc kv.1 kv.2 else acc) []

/-- MetadataService.parseMetadata after the external decoder produced the
tag dictionary: the pair of the base64-stripped raw dictionary and the
cleaned dictionary (file reading and decoding are outside this core). -/
def parseMetadataFromTags (tags : MetadataData) :
    Except String (MetadataData × MetadataData) :=
  let rawForDisplay := rawDataForDisplay tags
  match cleanMetadata tags with
  | .error e => .error e
  | .ok cleanedData => .ok (rawForDisplay, cleanedData)

end MetadataService

/-- Modelled from the spec (sections 3 and 4.2 step 6), for refinement
comparison only: the formatted string as claim C5 reads it, with the
direction letters derived from the sign of the ROUNDED coordinate fields of
the Coordinate and the magnitudes printed from those rounded fields. -/
def claimFormatted (c : MetadataService.LocationCoordinates) : String :=
  match c.latitude, c.longitude with
  | some la, some lo =>
      toFixedStr (JQ.abs la) 6 ++ "° " ++ (if la.geZeroB then "N" else "S") ++ ", " ++
      toFixedStr (JQ.abs lo) 6 ++ "° " ++ (if lo.geZeroB then "E" else "W")
  | _, _ => "NaN"

/-- Modelled from the spec (section 3), for refinement comparison only: the
maps URL as claim C6 reads it, interpolating the ROUNDED coordinate fields
of the Coordinate. -/
def claimMapsUrl (c : MetadataService.LocationCoordinates) : String :=
  "https://maps.google.com/?q=" ++ jsNumToStrO c.latitude ++ "," ++ jsNumToStrO c.longitude

/-- The per-component arithmetic the spec states for safeDivide, over the
rationals: n / d, except 0 when d = 0 (statement vocabulary). -/
def sdivQ (n d : ℤ) : ℚ := if d = 0 then 0 else (n : ℚ) / (d : ℚ)

/-- The values of a possibly non-finite number (statement vocabulary). -/
def toRatO (a : Option JQ) : Option ℚ := a.map JQ.toRat

/-- Modelled from claim C3: the condition under which the resolver is
claimed to return null — a GPS tag absent or falsy, or a GPS value field
that is not an array. -/
def gpsMissingOrMalformed (raw : MetadataData) : Bool :=
  !jsTruthy (jsGet raw "GPSLatitude") || !jsTruthy (jsGet raw "GPSLongitude") ||
  !jsIsArray (jsGetProp (jsGet raw "GPSLatitude") "value") ||
  !jsIsArray (jsGetProp (jsGet raw "GPSLongitude") "value")

/-- Modelled from the spec (section 3 DisplayMapping, section 8
idempotence): a value already in display shape carries no unwrappable
tag-envelope fields, so the envelope unwrapping step fixes it. -/
def displayShaped (v : JSValue) : Bool :=
  !(jsTruthy v && jsTypeof v == "object" &&
    (jsHasProp v "description" || jsHasProp v "value"))

/-- A [numerator, denominator] fraction pair with integer entries, as the
decoder produces for DMS components. -/
def mkPair (n d : ℤ) : JSValue := .arr [.num ⟨n, 1⟩, .num ⟨d, 1⟩]

/-- A 3-element DMS array of integer fraction pairs. -/
def mkDMS (n1 d1 n2 d2 n3 d3 : ℤ) : JSValue :=
  .arr [mkPair n1 d1, mkPair n2 d2, mkPair n3 d3]

/-- A dictionary whose GPS latitude value is an array of three plain
numbers instead of three fraction pairs (the shape claim C1 singles out);
its longitude value is three well-formed pairs. -/
def exC1 : MetadataData :=
  [("GPSLatitude", .obj [("value", .arr [.num ⟨5, 1⟩, .num ⟨6, 1⟩, .num ⟨7, 1⟩])]),
   ("GPSLongitude", .obj [("value", mkDMS 1 1 1 1 1 1)])]

/-- A dictionary with no GPS tags but with a preexisting GPSCoordinates
entry. -/
def exC3 : MetadataData := [("GPSCoordinates", .str "x")]

/-- A dictionary resolving to a tiny negative latitude (south reference,
one millionth of an arc second) and longitude 45 east: the latitude is
negative but rounds to 0 at 6 decimal digits. -/
def exC5 : MetadataData :=
  [("GPSLatitude", .obj [("value", mkDMS 0 1 0 1 1 1000000)]),
   ("GPSLatitudeRef", .obj [("description", .str "S")]),
   ("GPSLongitude", .obj [("value", mkDMS 45 1 0 1 0 1)]),
   ("GPSLongitudeRef", .obj [("description", .str "E")])]

/-- A dictionary resolving to latitude 1/3 north and longitude 74 east:
1/3 has no terminating decimal expansion, so rounding to 6 digits changes
the value. -/
def exC6 : MetadataData :=
  [("GPSLatitude", .obj [("value", mkDMS 1 3 0 1 0 1)]),
   ("GPSLatitudeRef", .obj [("description", .str "N")]),
   ("GPSLongitude", .obj [("value", mkDMS 74 1 0 1 0 1)]),
   ("GPSLongitudeRef", .obj [("description", .str "E")])]

/-- A dictionary with a typed binary buffer view nested inside a tag
envelope's value field. -/
def exC7 : MetadataData := [("Thumbnail", .obj [("value", .binview [⟨1, 1⟩, ⟨2, 1⟩])])]

/-- A dictionary with a base64 entry and an ordinary described entry. -/
def exC7w : MetadataData :=
  [("base64", .str "AAAA"), ("Make", .obj [("description", .str "Canon")])]

/-- A dictionary with a single null-valued entry. -/
def exC8 : MetadataData := [("Artist", .null)]

/-- A dictionary with a single envelope entry carrying both a description
and a value field. -/
def exC8w : MetadataData :=
  [("Model", .obj [("description", .str "X100"), ("value", .num ⟨7, 1⟩)])]

/-- A dictionary with a single null-valued entry under another key. -/
def exC9 : MetadataData := [("Title", .null)]

/-- A dictionary already in display shape. -/
def exC9w : MetadataData := [("Make", .str "Canon"), ("ISO", .num ⟨100, 1⟩)]

/-- A decoder output with a base64 entry among ordinary tags. -/
def exC10w : MetadataData := [("base64", .str "xyzz"), ("Make", .str "Canon")]

theorem aux_jsContainsKey_iff (o : MetadataData) (k : String) :
    jsContainsKey o k = true ↔ ∃ p ∈ o, p.1 = k := by
  simp [jsContainsKey, List.any_eq_true, beq_iff_eq]

theorem aux_jsContainsKey_append (a b : MetadataData) (k : String) :
    jsContainsKey (a ++ b) k = (jsContainsKey a k || jsContainsKey b k) := by
  simp [jsContainsKey]

theorem aux_jsSet_append (o : MetadataData) (k : String) (v : JSValue)
    (h : jsContainsKey o k = false) : jsSet o k v = o ++ [(k, v)] := by
  induction o with
  | nil => rfl
  | cons p rest ih =>
      simp only [jsContainsKey, List.any_cons, Bool.or_eq_false_iff] at h
      simp only [jsSet, h.1, Bool.false_eq_true, if_false, List.cons_append,
        List.cons.injEq, true_and]
      exact ih h.2

theorem aux_mem_jsSet (o : MetadataData) (k : String) (v : JSValue)
    (q : String × JSValue) (h : q ∈ jsSet o k v) : q ∈ o ∨ q = (k, v) := by
  induction o with
  | nil =>
      simp only [jsSet, List.mem_singleton] at h
      exact Or.inr h
  | cons p rest ih =>
      by_cases hpk : (p.1 == k) = true
      · simp only [jsSet, hpk, if_true, List.mem_cons] at h
        rcases h with h | h
        · exact Or.inr h
        · exact Or.inl (List.mem_cons_of_mem _ h)
      · simp only [jsSet, hpk, Bool.false_eq_true, if_false, List.mem_cons] at h
        rcases h with h | h
        · exact Or.inl (h ▸ List.mem_cons_self _ _)
        · rcases ih h with h' | h'
          · exact Or.inl (List.mem_cons_of_mem _ h')
          · exact Or.inr h'

theorem aux_jsFind_jsSet_self (o : MetadataData) (k : String) (v : JSValue) :
    jsFind (jsSet o k v) k = some v := by
  induction o with
  | nil => simp [jsSet, jsFind, List.find?]
  | cons p rest ih =>
      by_cases hpk : (p.1 == k) = true
      · simp [jsSet, hpk, jsFind, List.find?]
      · simp only [jsSet, hpk, Bool.false_eq_true, if_false]
        simpa [jsFind, List.find?, hpk] using ih

theorem aux_jsFind_jsSet_other (o : MetadataData) (k : String) (v : JSValue)
    (k' : String) (h : k' ≠ k) : jsFind (jsSet o k v) k' = jsFind o k' := by
  have hkk' : (k == k') = false := by
    simp only [beq_eq_false_iff_ne, ne_eq]
    exact fun hh => h hh.symm
  induction o with
  | nil => simp [jsSet, jsFind, List.find?, hkk']
  | cons p rest ih =>
      by_cases hpk : (p.1 == k) = true
      · have hp : (p.1 == k') = false := by
          simp only [beq_iff_eq] at hpk
          simp only [beq_eq_false_iff_ne, ne_eq, hpk]
          exact fun hh => h hh.symm
        simp [jsSet, hpk, jsFind, List.find?, hkk', hp]
      · simp only [jsSet, hpk, Bool.false_eq_true, if_false]
        by_cases hp : (p.1 == k') = true
        · simp [jsFind, List.find?, hp]
        · simpa [jsFind, List.find?, hp] using ih

theorem aux_jsFind_of_mem (l : MetadataData) (k : String) (v : JSValue)
    (hnd : (l.map Prod.fst).Nodup) (hm : (k, v) ∈ l) : jsFind l k = some v := by
  induction l with
  | nil => simp at hm
  | cons p rest ih =>
      simp only [List.map_cons, List.nodup_cons] at hnd
      rcases List.mem_cons.mp hm with h | h
      · simp [jsFind, List.find?, ← h]
      · have hp : (p.1 == k) = false := by
          simp only [beq_eq_false_iff_ne, ne_eq]
          intro hh
          exact hnd.1 (hh ▸ List.mem_map_of_mem Prod.fst h)
        simpa [jsFind, List.find?, hp] using ih hnd.2 h

theorem aux_jsFind_eq_none (l : MetadataData) (k : String) :
    jsFind l k = none ↔ ∀ p ∈ l, p.1 ≠ k := by
  simp [jsFind, List.find?_eq_none]

theorem aux_mem_foldl (R : String × JSValue → String × JSValue → Prop)
    (step : MetadataData → String × JSValue → MetadataData)
    (hstep : ∀ acc kv q, q ∈ step acc kv → q ∈ acc ∨ R kv q) :
    ∀ (l acc : MetadataData) (q : String × JSValue),
      q ∈ l.foldl step acc → q ∈ acc ∨ ∃ p ∈ l, R p q := by
  intro l
  induction l with
  | nil => intro acc q h; exact Or.inl h
  | cons hd tl ih =>
      intro acc q h
      rcases ih (step acc hd) q h with h' | ⟨p, hp, hr⟩
      · rcases hstep acc hd q h' with h'' | h''
        · exact Or.inl h''
        · exact Or.inr ⟨hd, List.mem_cons_self _ _, h''⟩
      · exact Or.inr ⟨p, List.mem_cons_of_mem _ hp, hr⟩

theorem aux_foldl_eq (F : String × JSValue → Option JSValue)
    (step : MetadataData → String × JSValue → MetadataData)
    (hstep : ∀ acc kv, step acc kv =
      match F kv with
      | some w => jsSet acc kv.1 w
      | none => acc) :
    ∀ (l acc : MetadataData), (l.map Prod.fst).Nodup →
      (∀ p ∈ l, jsContainsKey acc p.1 = false) →
      l.foldl step acc = acc ++ l.filterMap (fun kv => (F kv).map (fun w => (kv.1, w))) := by
  intro l
  induction l with
  | nil => intro acc _ _; simp
  | cons hd tl ih =>
      intro acc hnd hdis
      simp only [List.map_cons, List.nodup_cons] at hnd
      simp only [List.foldl_cons, List.filterMap_cons]
      rw [hstep]
      cases hF : F hd with
      | none =>
          simp only [hF]
          exact ih acc hnd.2 (fun p hp => hdis p (List.mem_cons_of_mem _ hp))
      | some w =>
          simp only [hF]
          rw [aux_jsSet_append acc hd.1 w (hdis hd (List.mem_cons_self _ _))]
          rw [ih (acc ++ [(hd.1, w)]) hnd.2 ?_]
          · simp
          · intro p hp
            rw [aux_jsContainsKey_append]
            have h1 : jsContainsKey acc p.1 = false := hdis p (List.mem_cons_of_mem _ hp)
            have h2 : jsContainsKey [(hd.1, w)] p.1 = false := by
              simp only [jsContainsKey, List.any_cons, List.any_nil, Bool.or_false,
                beq_eq_false_iff_ne, ne_eq]
              intro hh
              exact hnd.1 (hh ▸ List.mem_map_of_mem Prod.fst hp)
            rw [h1, h2]
            rfl

theorem aux_filterMap_guard (p : String × JSValue → Bool) (l : MetadataData) :
    l.filterMap (fun kv => if p kv then some kv else none) = l.filter p := by
  induction l with
  | nil => rfl
  | cons hd tl ih =>
      by_cases h : p hd <;> simp [List.filterMap_cons, List.filter_cons, h, ih]

theorem aux_map_of_forall_eq {α : Type} (f : α → α) (l : List α)
    (h : ∀ x ∈ l, f x = x) : l.map f = l := by
  induction l with
  | nil => rfl
  | cons hd tl ih =>
      simp only [List.map_cons, h hd (List.mem_cons_self _ _), List.cons.injEq, true_and]
      exact ih (fun x hx => h x (List.mem_cons_of_mem _ hx))

theorem aux_filtered_eq (raw : MetadataData) (hnd : (raw.map Prod.fst).Nodup) :
    raw.foldl (fun acc kv =>
        if MetadataService.keepEntry kv.1 kv.2 then jsSet acc kv.1 kv.2 else acc) []
      = raw.filter (fun kv => MetadataService.keepEntry kv.1 kv.2) := by
  rw [aux_foldl_eq (fun kv => if MetadataService.keepEntry kv.1 kv.2 then some kv.2 else none)
      _ (fun acc kv => by by_cases h : MetadataService.keepEntry kv.1 kv.2 <;> simp [h])
      raw [] hnd (fun p _ => rfl)]
  rw [List.nil_append]
  rw [show (fun kv : String × JSValue =>
        ((if MetadataService.keepEntry kv.1 kv.2 then some kv.2 else none).map
          (fun w => (kv.1, w))))
      = fun kv => if MetadataService.keepEntry kv.1 kv.2 then some kv else none from
    funext fun kv => by by_cases h : MetadataService.keepEntry kv.1 kv.2 <;> simp [h]]
  exact aux_filterMap_guard _ raw

theorem aux_cleaned_eq (l : MetadataData) (hnd : (l.map Prod.fst).Nodup) :
    l.foldl (fun acc kv => jsSet acc kv.1 (MetadataService.unwrapValue kv.2)) []
      = l.map (fun kv => (kv.1, MetadataService.unwrapValue kv.2)) := by
  rw [aux_foldl_eq (fun kv => some (MetadataService.unwrapValue kv.2))
      _ (fun acc kv => rfl) l [] hnd (fun p _ => rfl)]
  rw [List.nil_append]
  exact congrFun (List.filterMap_eq_map _) l

theorem aux_display_eq (tags : MetadataData) (hnd : (tags.map Prod.fst).Nodup) :
    tags.foldl (fun acc kv => if kv.1 != "base64" then jsSet acc kv.1 kv.2 else acc) []
      = tags.filter (fun kv => kv.1 != "base64") := by
  rw [aux_foldl_eq (fun kv => if kv.1 != "base64" then some kv.2 else none)
      _ (fun acc kv => by by_cases h : kv.1 != "base64" <;> simp [h])
      tags [] hnd (fun p _ => rfl)]
  rw [List.nil_append]
  rw [show (fun kv : String × JSValue =>
        ((if kv.1 != "base64" then some kv.2 else none).map (fun w => (kv.1, w))))
      = fun kv => if kv.1 != "base64" then some kv else none from
    funext fun kv => by by_cases h : kv.1 != "base64" <;> simp [h]]
  exact aux_filterMap_guard _ tags

theorem aux_filter_keys_nodup (p : String × JSValue → Bool) (l : MetadataData)
    (hnd : (l.map Prod.fst).Nodup) : ((l.filter p).map Prod.fst).Nodup :=
  hnd.sublist ((List.filter_sublist l).map Prod.fst)

theorem aux_unwrap_keys (l : MetadataData) :
    ((l.map (fun kv => (kv.1, MetadataService.unwrapValue kv.2))).map Prod.fst)
      = l.map Prod.fst := by
  simp [List.map_map]

theorem aux_natCast_toNat_q (d : ℤ) (h : 0 ≤ d) : ((d.toNat : ℕ) : ℚ) = (d : ℚ) := by
  rw [← Int.cast_natCast, Int.toNat_of_nonneg h]

theorem aux_toRat_mkSigned (n d : ℤ) : (JQ.mkSigned n d).toRat = (n : ℚ) / (d : ℚ) := by
  unfold JQ.mkSigned JQ.toRat
  by_cases h : d < 0
  · simp only [h, if_true]
    rw [aux_natCast_toNat_q (-d) (by omega)]
    push_cast
    rw [neg_div_neg_eq]
  · simp only [h, if_false]
    rw [aux_natCast_toNat_q d (by omega)]

theorem aux_toRat_add (a b : JQ) (ha : a.den ≠ 0) (hb : b.den ≠ 0) :
    (a.add b).toRat = a.toRat + b.toRat := by
  unfold JQ.add JQ.toRat
  have ha' : ((a.den : ℕ) : ℚ) ≠ 0 := Nat.cast_ne_zero.mpr ha
  have hb' : ((b.den : ℕ) : ℚ) ≠ 0 := Nat.cast_ne_zero.mpr hb
  push_cast
  rw [div_add_div _ _ ha' hb']
  ring_nf

theorem aux_toRat_divConst (a : JQ) (c : ℕ) :
    (a.divConst c).toRat = a.toRat / (c : ℚ) := by
  unfold JQ.divConst JQ.toRat
  push_cast
  rw [div_div]

theorem aux_toRat_negAbs (q : JQ) : (JQ.neg (JQ.abs q)).toRat = -|q.toRat| := by
  unfold JQ.neg JQ.abs JQ.toRat
  rw [abs_div, abs_of_nonneg (by positivity : (0 : ℚ) ≤ (q.den : ℚ))]
  push_cast
  rw [neg_div]

theorem aux_safeDivide_mkPair (n d : ℤ) :
    ∃ q : JQ, MetadataService.safeDivide (mkPair n d) = .ok (some q) ∧ 0 < q.den ∧
      q.toRat = sdivQ n d := by
  by_cases h : d = 0
  · refine ⟨⟨0, 1⟩, ?_, one_pos, ?_⟩
    · subst h; rfl
    · subst h; simp [JQ.toRat, sdivQ]
  · have hbeq : (d == 0) = false := by simpa using h
    refine ⟨JQ.div ⟨n, 1⟩ ⟨d, 1⟩, ?_, ?_, ?_⟩
    · simp only [MetadataService.safeDivide, mkPair, jsDestructPair, List.getD,
        List.get?, Option.getD, bind, Except.bind, jsStrictEqZero, hbeq,
        Bool.false_eq_true, if_false, jsDiv, jsToNumber, pure, Except.pure]
    · simp only [JQ.div, JQ.mkSigned]
      split_ifs with hd
      · show 0 < (-(((1 : ℕ) : ℤ) * d)).toNat
        omega
      · show 0 < (((1 : ℕ) : ℤ) * d).toNat
        omega
    · have : (JQ.div ⟨n, 1⟩ ⟨d, 1⟩) = JQ.mkSigned (n * ((1 : ℕ) : ℤ)) (((1 : ℕ) : ℤ) * d) := rfl
      rw [this, aux_toRat_mkSigned]
      simp [sdivQ, h]

theorem aux_convert_mkDMS (n1 d1 n2 d2 n3 d3 : ℤ) :
    ∃ q : JQ, MetadataService.convertDMSToDecimal (mkDMS n1 d1 n2 d2 n3 d3) = .ok (some q) ∧
      0 < q.den ∧ q.toRat = sdivQ n1 d1 + sdivQ n2 d2 / 60 + sdivQ n3 d3 / 3600 := by
  obtain ⟨q1, h1, hp1, hv1⟩ := aux_safeDivide_mkPair n1 d1
  obtain ⟨q2, h2, hp2, hv2⟩ := aux_safeDivide_mkPair n2 d2
  obtain ⟨q3, h3, hp3, hv3⟩ := aux_safeDivide_mkPair n3 d3
  refine ⟨JQ.add (JQ.add q1 (q2.divConst 60)) (q3.divConst 3600), ?_, ?_, ?_⟩
  · have hguard : (!jsIsArray (mkDMS n1 d1 n2 d2 n3 d3)
        || ((jsArrElems (mkDMS n1 d1 n2 d2 n3 d3)).length != 3)) = false := rfl
    have hi0 : jsIndex (mkDMS n1 d1 n2 d2 n3 d3) 0 = mkPair n1 d1 := rfl
    have hi1 : jsIndex (mkDMS n1 d1 n2 d2 n3 d3) 1 = mkPair n2 d2 := rfl
    have hi2 : jsIndex (mkDMS n1 d1 n2 d2 n3 d3) 2 = mkPair n3 d3 := rfl
    simp only [MetadataService.convertDMSToDecimal, hguard, Bool.false_eq_true, if_false,
      hi0, hi1, hi2, h1, h2, h3, bind, Except.bind, pure, Except.pure, qAddO,
      qDivConstO, Option.map]
  · simp only [JQ.add, JQ.divConst]
    have h60 : 0 < q2.den * 60 := Nat.mul_pos hp2 (by norm_num)
    have h3600 : 0 < q3.den * 3600 := Nat.mul_pos hp3 (by norm_num)
    exact Nat.mul_pos (Nat.mul_pos hp1 h60) h3600
  · have hA : (JQ.add q1 (q2.divConst 60)).den ≠ 0 := by
      simp only [JQ.add, JQ.divConst]
      exact Nat.mul_ne_zero hp1.ne' (Nat.mul_ne_zero hp2.ne' (by norm_num))
    have hB : (q3.divConst 3600).den ≠ 0 := by
      simp only [JQ.divConst]
      exact Nat.mul_ne_zero hp3.ne' (by norm_num)
    rw [aux_toRat_add _ _ hA hB,
        aux_toRat_add _ _ hp1.ne' (by
          simp only [JQ.divConst]
          exact Nat.mul_ne_zero hp2.ne' (by norm_num)),
        aux_toRat_divConst, aux_toRat_divConst, hv1, hv2, hv3]
    norm_num

theorem aux_scaledRound_abs (q : JQ) (k : ℕ) :
    (JQ.abs q).scaledRound k = q.scaledRound k := by
  simp [JQ.abs, JQ.scaledRound, Int.natAbs_abs]

theorem aux_scaledRound_int (m : ℤ) : (⟨m, 10 ^ 6⟩ : JQ).scaledRound 6 = m.natAbs := by
  unfold JQ.scaledRound
  norm_num
  omega

theorem aux_roundTo6_scaledRound (q : JQ) :
    (JQ.roundTo6 q).scaledRound 6 = q.scaledRound 6 := by
  by_cases h : q.num < 0
  · have h1 : (JQ.roundTo6 q).num = -(q.scaledRound 6 : ℤ) := by
      show (if q.num < 0 then -(q.scaledRound 6 : ℤ) else (q.scaledRound 6 : ℤ))
        = -(q.scaledRound 6 : ℤ)
      rw [if_pos h]
    show ((JQ.roundTo6 q).num.natAbs * 10 ^ 6 * 2 + (JQ.roundTo6 q).den)
        / ((JQ.roundTo6 q).den * 2) = q.scaledRound 6
    rw [h1, show (JQ.roundTo6 q).den = 10 ^ 6 from rfl, Int.natAbs_neg, Int.natAbs_ofNat]
    norm_num
    omega
  · have h1 : (JQ.roundTo6 q).num = (q.scaledRound 6 : ℤ) := by
      show (if q.num < 0 then -(q.scaledRound 6 : ℤ) else (q.scaledRound 6 : ℤ))
        = (q.scaledRound 6 : ℤ)
      rw [if_neg h]
    show ((JQ.roundTo6 q).num.natAbs * 10 ^ 6 * 2 + (JQ.roundTo6 q).den)
        / ((JQ.roundTo6 q).den * 2) = q.scaledRound 6
    rw [h1, show (JQ.roundTo6 q).den = 10 ^ 6 from rfl, Int.natAbs_ofNat]
    norm_num
    omega

theorem aux_toFixed_round (q : JQ) :
    toFixedStr (JQ.abs (JQ.roundTo6 q)) 6 = toFixedStr (JQ.abs q) 6 := by
  have h1 : (JQ.abs (JQ.roundTo6 q)).scaledRound 6 = q.scaledRound 6 := by
    rw [aux_scaledRound_abs, aux_roundTo6_scaledRound]
  have h2 : (JQ.abs q).scaledRound 6 = q.scaledRound 6 := aux_scaledRound_abs q 6
  have hne1 : ¬ (JQ.abs (JQ.roundTo6 q)).num < 0 := by
    simp only [JQ.abs, not_lt]
    exact abs_nonneg _
  have hne2 : ¬ (JQ.abs q).num < 0 := by
    simp only [JQ.abs, not_lt]
    exact abs_nonneg _
  simp only [toFixedStr, hne1, hne2, if_false, h1, h2]

theorem aux_geZeroB_round (q : JQ) (h : ¬(q.num < 0 ∧ q.scaledRound 6 = 0)) :
    (JQ.roundTo6 q).geZeroB = q.geZeroB := by
  unfold JQ.roundTo6 JQ.geZeroB
  by_cases hn : q.num < 0
  · have hs : q.scaledRound 6 ≠ 0 := fun hs => h ⟨hn, hs⟩
    simp only [hn, if_true, decide_eq_decide]
    omega
  · simp only [hn, if_false, decide_eq_decide]
    omega

theorem aux_roundTo6_fix (a : ℤ) : JQ.roundTo6 ⟨a, 10 ^ 6⟩ = ⟨a, 10 ^ 6⟩ := by
  show (⟨if (⟨a, 10 ^ 6⟩ : JQ).num < 0 then -((⟨a, 10 ^ 6⟩ : JQ).scaledRound 6 : ℤ)
        else ((⟨a, 10 ^ 6⟩ : JQ).scaledRound 6 : ℤ), 10 ^ 6⟩ : JQ) = ⟨a, 10 ^ 6⟩
  rw [aux_scaledRound_int]
  by_cases h : a < 0
  · rw [if_pos (show (⟨a, 10 ^ 6⟩ : JQ).num < 0 from h)]
    have h2 : -(a.natAbs : ℤ) = a := by omega
    rw [h2]
  · rw [if_neg (show ¬ (⟨a, 10 ^ 6⟩ : JQ).num < 0 from h)]
    have h2 : (a.natAbs : ℤ) = a := by omega
    rw [h2]

theorem aux_resolver_null_iff (raw : MetadataData) :
    MetadataService.processLocationCoordinates raw = .ok none
      ↔ gpsMissingOrMalformed raw = true := by
  unfold MetadataService.processLocationCoordinates gpsMissingOrMalformed
  simp only []
  cases hb1 : (!jsTruthy (jsGet raw "GPSLatitude") || !jsTruthy (jsGet raw "GPSLongitude")) with
  | true => simp [hb1]
  | false =>
      simp only [hb1, Bool.false_eq_true, if_false, Bool.false_or]
      cases hb2 : (!jsIsArray (jsGetProp (jsGet raw "GPSLatitude") "value")
          || !jsIsArray (jsGetProp (jsGet raw "GPSLongitude") "value")) with
      | true => simp [hb2]
      | false =>
          simp only [hb2, Bool.false_eq_true, if_false]
          rcases hA : MetadataService.convertDMSToDecimal
              (jsGetProp (jsGet raw "GPSLatitude") "value") with eA | vA
          · simp [hA, hb2]
          · rcases hB : MetadataService.convertDMSToDecimal
                (jsGetProp (jsGet raw "GPSLongitude") "value") with eB | vB
            · simp [hA, hB, hb2]
            · simp [hA, hB, hb2]

theorem aux_keep_of (k : String) (v : JSValue) (hk : k ≠ "base64")
    (hn : jsIsNull v = false) (hw : jsIsView v = false) :
    MetadataService.keepEntry k v = true := by
  have hk' : (k != "base64") = true := by simpa [bne_iff_ne] using hk
  cases v
  case null => simp [jsIsNull] at hn
  case binview ds => simp [jsIsView] at hw
  all_goals simp only [MetadataService.keepEntry, hk', Bool.true_and]
  all_goals rfl

theorem aux_unwrap_id (v : JSValue) (h : displayShaped v = true) :
    MetadataService.unwrapValue v = v := by
  unfold displayShaped at h
  unfold MetadataService.unwrapValue
  rw [Bool.not_eq_true'] at h
  by_cases h1 : jsTruthy v = true
  · by_cases h2 : (jsTypeof v == "object") = true
    · have h3 : (jsHasProp v "description" || jsHasProp v "value") = false := by
        cases hC : (jsHasProp v "description" || jsHasProp v "value") with
        | false => rfl
        | true => rw [h1, h2, hC] at h; simp at h
      rcases Bool.or_eq_false_iff.mp h3 with ⟨hD, hV⟩
      simp [h1, h2, hD, hV]
    · simp [h2]
  · simp [h1]

theorem aux_isView_optNum (x : Option JQ) : jsIsView (optNumToJS x) = false := by
  cases x <;> rfl

theorem aux_isView_coord (loc : MetadataService.LocationCoordinates) :
    jsIsView (MetadataService.coordToJSValue loc) = false := rfl

theorem aux_find_filter (q : String × JSValue → Bool) (k : String)
    (hq : ∀ p : String × JSValue, p.1 = k → q p = true) :
    ∀ l : MetadataData, jsFind (l.filter q) k = jsFind l k := by
  intro l
  induction l with
  | nil => rfl
  | cons hd tl ih =>
      by_cases hh : (hd.1 == k) = true
      · have hqh : q hd = true := hq hd (beq_iff_eq.mp hh)
        simp [List.filter_cons, hqh, jsFind, List.find?, hh]
      · cases hqh : q hd with
        | false =>
            simp only [List.filter_cons, hqh, Bool.false_eq_true, if_false]
            rw [ih]
            simp only [jsFind, List.find?, hh]
        | true =>
            simp only [List.filter_cons, hqh, if_true]
            simp only [jsFind, List.find?, hh]
            exact ih

/-- C1: the spec claims cleanMetadata and the coordinate resolution inside
it return normally on every input tag dictionary, including GPS tags whose
3-element value arrays hold plain numbers instead of fraction pairs.  The
code violates this: on exC1 (GPSLatitude value [5, 6, 7]) safeDivide
destructures the number 5, which is not iterable, so a TypeError is thrown
and propagates out of cleanMetadata.  This theorem evaluates the code at
that failing input, witnessing the code bug. -/
theorem C1_cleanMetadata_throws_on_plain_number_triple :
    MetadataService.processLocationCoordinates exC1
        = .error "TypeError: value is not iterable" ∧
    MetadataService.cleanMetadata exC1 = .error "TypeError: value is not iterable" :=
  ⟨rfl, rfl⟩

/-- C2: convertDMSToDecimal returns 0 on any argument that is not an array
of exactly 3 elements; on a 3-element array of [n, d] number pairs each
component evaluates to n / d except 0 when d = 0, and the result is
degrees + minutes / 60 + seconds / 3600; in particular with positive
denominators the result is exactly n1/d1 + (n2/d2)/60 + (n3/d3)/3600. -/
theorem C2_convertDMSToDecimal_spec :
    (∀ v : JSValue, jsIsArray v = false ∨ (jsArrElems v).length ≠ 3 →
      MetadataService.convertDMSToDecimal v = .ok (some ⟨0, 1⟩)) ∧
    (∀ n1 d1 n2 d2 n3 d3 : ℤ,
      (MetadataService.convertDMSToDecimal (mkDMS n1 d1 n2 d2 n3 d3)).map toRatO
        = .ok (some (sdivQ n1 d1 + sdivQ n2 d2 / 60 + sdivQ n3 d3 / 3600))) ∧
    (∀ n1 d1 n2 d2 n3 d3 : ℤ, 0 < d1 → 0 < d2 → 0 < d3 →
      (MetadataService.convertDMSToDecimal (mkDMS n1 d1 n2 d2 n3 d3)).map toRatO
        = .ok (some ((n1 : ℚ) / d1 + ((n2 : ℚ) / d2) / 60 + ((n3 : ℚ) / d3) / 3600))) := by
  refine ⟨?_, ?_, ?_⟩
  · intro v h
    have hg : (!jsIsArray v || (jsArrElems v).length != 3) = true := by
      rcases h with h | h
      · simp [h]
      · simp [bne_iff_ne, h]
    simp [MetadataService.convertDMSToDecimal, hg]
  · intro n1 d1 n2 d2 n3 d3
    obtain ⟨q, hq, _, hv⟩ := aux_convert_mkDMS n1 d1 n2 d2 n3 d3
    rw [hq]
    simp only [Except.map, toRatO, Option.map, hv]
  · intro n1 d1 n2 d2 n3 d3 h1 h2 h3
    obtain ⟨q, hq, _, hv⟩ := aux_convert_mkDMS n1 d1 n2 d2 n3 d3
    rw [hq]
    simp only [Except.map, toRatO, Option.map, hv, sdivQ, h1.ne', h2.ne', h3.ne', if_false]

/-- C2 witness: the theorem applied at a non-array argument, at the
zero-denominator scenario from the spec, and at the plain 40 degrees
30 minutes scenario. -/
theorem C2_convertDMSToDecimal_spec_witness :
    MetadataService.convertDMSToDecimal (.num ⟨5, 1⟩) = .ok (some ⟨0, 1⟩) ∧
    (MetadataService.convertDMSToDecimal (mkDMS 40 1 30 1 5 0)).map toRatO
      = .ok (some (sdivQ 40 1 + sdivQ 30 1 / 60 + sdivQ 5 0 / 3600)) ∧
    (MetadataService.convertDMSToDecimal (mkDMS 40 1 30 1 0 1)).map toRatO
      = .ok (some ((40 : ℚ) / 1 + ((30 : ℚ) / 1) / 60 + ((0 : ℚ) / 1) / 3600)) :=
  ⟨C2_convertDMSToDecimal_spec.1 (.num ⟨5, 1⟩) (Or.inl rfl),
   C2_convertDMSToDecimal_spec.2.1 40 1 30 1 5 0,
   C2_convertDMSToDecimal_spec.2.2 40 1 30 1 0 1 (by decide) (by decide) (by decide)⟩

/-- C4: the hemisphere corrections of the resolver (correctLatitude and
correctLongitude are the literal correction steps of
processLocationCoordinates): a normalized latitude reference "S" yields
-|latitude|; a longitude reference starting with "W" yields -|longitude|;
an empty longitude reference with the computed longitude strictly between
0 and 180 (given a positive denominator, 0 < num and num < 180 * den say
exactly that about the value) also negates; longitude 200 with an empty
reference is unchanged; and a latitude reference other than "S" leaves the
latitude exactly as computed. -/
theorem C4_hemisphere_corrections :
    (∀ la : JQ, toRatO (MetadataService.correctLatitude "S" (some la))
        = some (-|la.toRat|)) ∧
    (∀ (r : String) (lo : JQ), sStarts r "W" = true →
      toRatO (MetadataService.correctLongitude r (some lo)) = some (-|lo.toRat|)) ∧
    (∀ lo : JQ, 0 < lo.den → 0 < lo.num → lo.num < (180 : ℤ) * lo.den →
      toRatO (MetadataService.correctLongitude "" (some lo)) = some (-|lo.toRat|)) ∧
    (toRatO (MetadataService.correctLongitude "" (some ⟨200, 1⟩)) = some 200) ∧
    (∀ (r : String) (la : JQ), r ≠ "S" →
      MetadataService.correctLatitude r (some la) = some la) := by
  refine ⟨?_, ?_, ?_, ?_, ?_⟩
  · intro la
    simp [MetadataService.correctLatitude, toRatO, aux_toRat_negAbs]
  · intro r lo h
    simp [MetadataService.correctLongitude, h, toRatO, aux_toRat_negAbs]
  · intro lo _ hpos hlt
    have hW : sStarts "" "W" = false := rfl
    have hg : JQ.gtZeroB lo = true := decide_eq_true hpos
    have hl : JQ.ltConstB lo 180 = true := decide_eq_true hlt
    simp [MetadataService.correctLongitude, hW, qGtZeroO, qLtConstO, hg, hl,
      toRatO, aux_toRat_negAbs]
  · have h : MetadataService.correctLongitude "" (some ⟨200, 1⟩) = some ⟨200, 1⟩ := rfl
    rw [h]
    simp [toRatO, JQ.toRat]
  · intro r la h
    simp [MetadataService.correctLatitude, beq_iff_eq, h]

/-- C4 witness: the corrections applied at latitude 10.5 south, longitude
74 with reference "WEST", longitude 45 with empty reference, longitude 200
with empty reference, and latitude 10.5 with reference "N". -/
theorem C4_hemisphere_corrections_witness :
    toRatO (MetadataService.correctLatitude "S" (some ⟨21, 2⟩))
      = some (-|JQ.toRat ⟨21, 2⟩|) ∧
    sStarts "WEST" "W" = true ∧
    toRatO (MetadataService.correctLongitude "WEST" (some ⟨74, 1⟩))
      = some (-|JQ.toRat ⟨74, 1⟩|) ∧
    toRatO (MetadataService.correctLongitude "" (some ⟨45, 1⟩))
      = some (-|JQ.toRat ⟨45, 1⟩|) ∧
    toRatO (MetadataService.correctLongitude "" (some ⟨200, 1⟩)) = some 200 ∧
    MetadataService.correctLatitude "N" (some ⟨21, 2⟩) = some ⟨21, 2⟩ :=
  ⟨C4_hemisphere_corrections.1 ⟨21, 2⟩,
   rfl,
   C4_hemisphere_corrections.2.1 "WEST" ⟨74, 1⟩ rfl,
   C4_hemisphere_corrections.2.2.1 ⟨45, 1⟩ (by decide) (by decide) (by decide),
   C4_hemisphere_corrections.2.2.2.1,
   C4_hemisphere_corrections.2.2.2.2 "N" ⟨21, 2⟩ (by decide)⟩

/-- C5 counterexample: on exC5 the computed latitude is -1/3600000000
(south), which is negative but rounds to 0 at 6 fractional digits.  The
code letters the latitude S (sign of the PRE-rounding value), while the
claim letters it from the sign of the rounded field (0, hence N); the
formatted string the code builds therefore differs from the claimed one. -/
theorem C5_counterexample :
    (MetadataService.processLocationCoordinates exC5).map
        (Option.map (fun c => c.formatted == claimFormatted c)) = .ok (some false) ∧
    (MetadataService.processLocationCoordinates exC5).map
        (Option.map (fun c => c.formatted)) = .ok (some "0.000000° S, 45.000000° E") ∧
    (MetadataService.processLocationCoordinates exC5).map
        (Option.map (fun c => claimFormatted c)) = .ok (some "0.000000° N, 45.000000° E") :=
  ⟨rfl, rfl, rfl⟩

/-- C5 amended: the direction letters are derived from the sign of the
PRE-rounding corrected values (value >= 0 gives N/E, value < 0 gives S/W)
and the magnitudes are their toFixed(6) renderings; whenever neither value
is a negative quantity that rounds to exactly 0 at 6 digits (given positive
denominators, num < 0 says the value is negative and scaledRound 6 = 0 that
it rounds to 0), this coincides with the claimed rounded-field reading of
the formatted string. -/
theorem C5_formatted_direction_letters :
    (∀ la lo : JQ, (MetadataService.buildCoordinate (some la) (some lo)).formatted
        = toFixedStr (JQ.abs la) 6 ++ "° " ++ (if la.geZeroB then "N" else "S") ++ ", "
          ++ toFixedStr (JQ.abs lo) 6 ++ "° " ++ (if lo.geZeroB then "E" else "W")) ∧
    (∀ la lo : JQ, 0 < la.den → 0 < lo.den →
      ¬(la.num < 0 ∧ la.scaledRound 6 = 0) → ¬(lo.num < 0 ∧ lo.scaledRound 6 = 0) →
      (MetadataService.buildCoordinate (some la) (some lo)).formatted
        = claimFormatted (MetadataService.buildCoordinate (some la) (some lo))) := by
  constructor
  · intro la lo
    rfl
  · intro la lo _ _ hla hlo
    rw [show claimFormatted (MetadataService.buildCoordinate (some la) (some lo))
        = toFixedStr (JQ.abs (JQ.roundTo6 la)) 6 ++ "° "
          ++ (if (JQ.roundTo6 la).geZeroB then "N" else "S") ++ ", "
          ++ toFixedStr (JQ.abs (JQ.roundTo6 lo)) 6 ++ "° "
          ++ (if (JQ.roundTo6 lo).geZeroB then "E" else "W") from rfl]
    rw [aux_toFixed_round la, aux_toFixed_round lo,
        aux_geZeroB_round la hla, aux_geZeroB_round lo hlo]
    rfl

/-- C5 witness: the amended theorem applied at latitude -10.5, longitude
45, reproducing the example string of the claim. -/
theorem C5_formatted_direction_letters_witness :
    (0 : ℕ) < (⟨-21, 2⟩ : JQ).den ∧ (0 : ℕ) < (⟨45, 1⟩ : JQ).den ∧
    ¬((⟨-21, 2⟩ : JQ).num < 0 ∧ (⟨-21, 2⟩ : JQ).scaledRound 6 = 0) ∧
    ¬((⟨45, 1⟩ : JQ).num < 0 ∧ (⟨45, 1⟩ : JQ).scaledRound 6 = 0) ∧
    (MetadataService.buildCoordinate (some ⟨-21, 2⟩) (some ⟨45, 1⟩)).formatted
      = claimFormatted (MetadataService.buildCoordinate (some ⟨-21, 2⟩) (some ⟨45, 1⟩)) ∧
    (MetadataService.buildCoordinate (some ⟨-21, 2⟩) (some ⟨45, 1⟩)).formatted
      = "10.500000° S, 45.000000° E" :=
  ⟨by decide, by decide, by decide, by decide,
   C5_formatted_direction_letters.2 ⟨-21, 2⟩ ⟨45, 1⟩
     (by decide) (by decide) (by decide) (by decide),
   by rfl⟩

/-- C6 counterexample: on exC6 the resolved latitude is 1/3, whose rounded
field is 333333/1000000; the mapsUrl the code builds interpolates the
PRE-rounding value (printed with 17 fractional digits), not the rounded
field, so it differs from the URL the claim specifies. -/
theorem C6_counterexample :
    (MetadataService.processLocationCoordinates exC6).map
        (Option.map (fun c => c.mapsUrl == claimMapsUrl c)) = .ok (some false) ∧
    (MetadataService.processLocationCoordinates exC6).map
        (Option.map (fun c => c.mapsUrl))
      = .ok (some "https://maps.google.com/?q=0.33333333333333333,74") ∧
    (MetadataService.processLocationCoordinates exC6).map
        (Option.map (fun c => claimMapsUrl c))
      = .ok (some "https://maps.google.com/?q=0.333333,74") :=
  ⟨rfl, rfl, rfl⟩

/-- C6 amended: mapsUrl interpolates the PRE-rounding signed decimal
values; whenever both values are already exact multiples of 10^-6 (so that
rounding to 6 fractional digits fixes them) the URL coincides with the one
built from the rounded coordinate fields, which is what the claim
specifies. -/
theorem C6_mapsUrl_uses_preround_values :
    (∀ la lo : Option JQ, (MetadataService.buildCoordinate la lo).mapsUrl
        = "https://maps.google.com/?q=" ++ jsNumToStrO la ++ "," ++ jsNumToStrO lo) ∧
    (∀ a b : ℤ,
      (MetadataService.buildCoordinate (some ⟨a, 10 ^ 6⟩) (some ⟨b, 10 ^ 6⟩)).mapsUrl
        = claimMapsUrl (MetadataService.buildCoordinate
            (some ⟨a, 10 ^ 6⟩) (some ⟨b, 10 ^ 6⟩))) := by
  constructor
  · intro la lo
    rfl
  · intro a b
    rw [show claimMapsUrl (MetadataService.buildCoordinate
          (some ⟨a, 10 ^ 6⟩) (some ⟨b, 10 ^ 6⟩))
        = "https://maps.google.com/?q=" ++ jsNumToStr (JQ.roundTo6 ⟨a, 10 ^ 6⟩) ++ ","
          ++ jsNumToStr (JQ.roundTo6 ⟨b, 10 ^ 6⟩) from rfl]
    rw [aux_roundTo6_fix a, aux_roundTo6_fix b]
    rfl

theorem aux_mem_fold1 (raw : MetadataData) (q : String × JSValue)
    (h : q ∈ raw.foldl (fun acc kv =>
      if MetadataService.keepEntry kv.1 kv.2 then jsSet acc kv.1 kv.2 else acc) []) :
    ∃ p ∈ raw, q = p ∧ MetadataService.keepEntry p.1 p.2 = true := by
  have hstep : ∀ (acc : MetadataData) (kv q : String × JSValue),
      q ∈ (if MetadataService.keepEntry kv.1 kv.2 then jsSet acc kv.1 kv.2 else acc) →
      q ∈ acc ∨ (q = kv ∧ MetadataService.keepEntry kv.1 kv.2 = true) := by
    intro acc kv q hq
    by_cases hk : MetadataService.keepEntry kv.1 kv.2 = true
    · rw [if_pos hk] at hq
      rcases aux_mem_jsSet _ _ _ _ hq with h1 | h1
      · exact Or.inl h1
      · exact Or.inr ⟨by rw [h1], hk⟩
    · rw [if_neg hk] at hq
      exact Or.inl hq
  rcases aux_mem_foldl _ _ hstep raw [] q h with h' | ⟨p, hp, he, hk⟩
  · simp at h'
  · exact ⟨p, hp, he, hk⟩

theorem aux_mem_fold2 (l : MetadataData) (q : String × JSValue)
    (h : q ∈ l.foldl (fun acc kv =>
      jsSet acc kv.1 (MetadataService.unwrapValue kv.2)) []) :
    ∃ p ∈ l, q = (p.1, MetadataService.unwrapValue p.2) := by
  have hstep : ∀ (acc : MetadataData) (kv q : String × JSValue),
      q ∈ jsSet acc kv.1 (MetadataService.unwrapValue kv.2) →
      q ∈ acc ∨ q = (kv.1, MetadataService.unwrapValue kv.2) := by
    intro acc kv q hq
    exact aux_mem_jsSet _ _ _ _ hq
  rcases aux_mem_foldl _ _ hstep l [] q h with h' | ⟨p, hp, he⟩
  · simp at h'
  · exact ⟨p, hp, he⟩

theorem aux_no_value_array (raw : MetadataData)
    (hsh : ∀ p ∈ raw, displayShaped (p : String × JSValue).2 = true) (key : String) :
    jsIsArray (jsGetProp (jsGet raw key) "value") = false := by
  unfold jsGet
  cases hf : raw.find? (fun p => p.1 == key) with
  | none => rfl
  | some p =>
      show jsIsArray (jsGetProp p.2 "value") = false
      have hpm : p ∈ raw := List.mem_of_find?_eq_some hf
      have hds := hsh p hpm
      rcases hv : p.2 with q | _ | s | b | _ | _ | es | fields | ds
      case num => rfl
      case nan => rfl
      case str => rfl
      case bool => rfl
      case null => rfl
      case undefined => rfl
      case arr => rfl
      case binview => rfl
      case obj =>
          rw [hv] at hds
          unfold displayShaped at hds
          simp only [jsTruthy, jsTypeof, Bool.not_eq_true', Bool.and_eq_true,
            Bool.true_and, Bool.and_eq_false_iff, Bool.or_eq_false_iff] at hds
          have hnoval : jsHasProp (JSValue.obj fields) "value" = false := by
            rcases hds with hds | ⟨_, hds⟩
            · exact absurd hds (by decide)
            · exact hds
          have hnone : fields.find? (fun pr => pr.1 == "value") = none := by
            rw [List.find?_eq_none]
            intro x hx
            simp only [jsHasProp] at hnoval
            have := List.any_eq_false.mp hnoval x hx
            simpa using this
          simp [jsGetProp, hnone, jsIsArray]

/-- C3 counterexample: a dictionary with no GPS tags but with a
preexisting GPSCoordinates entry.  The resolver returns null, yet the
normalizer output does contain a GPSCoordinates key (copied through from
the input), refuting the claim that the output never has one when the
resolver returns null. -/
theorem C3_counterexample :
    MetadataService.processLocationCoordinates exC3 = .ok none ∧
    MetadataService.cleanMetadata exC3 = .ok [("GPSCoordinates", JSValue.str "x")] ∧
    jsContainsKey [("GPSCoordinates", JSValue.str "x")] "GPSCoordinates" = true :=
  ⟨rfl, rfl, rfl⟩

/-- C3 amended: the resolver returns null exactly when GPSLatitude or
GPSLongitude is absent or falsy, or either value field is not an array;
and whenever it returns null, cleanMetadata ADDS no GPSCoordinates key —
the output contains one only if the input dictionary itself does. -/
theorem C3_resolver_null_characterization :
    (∀ raw : MetadataData,
      MetadataService.processLocationCoordinates raw = .ok none
        ↔ gpsMissingOrMalformed raw = true) ∧
    (∀ raw out : MetadataData,
      MetadataService.processLocationCoordinates raw = .ok none →
      MetadataService.cleanMetadata raw = .ok out →
      jsContainsKey out "GPSCoordinates" = true →
      jsContainsKey raw "GPSCoordinates" = true) := by
  constructor
  · exact aux_resolver_null_iff
  · intro raw out hres hclean hmem
    unfold MetadataService.cleanMetadata at hclean
    rw [hres] at hclean
    simp only [Except.ok.injEq] at hclean
    subst hclean
    rcases (aux_jsContainsKey_iff _ _).mp hmem with ⟨q, hq, hqk⟩
    rcases aux_mem_fold2 _ q hq with ⟨p1, hp1, he1⟩
    rcases aux_mem_fold1 _ p1 hp1 with ⟨p2, hp2, he2, _⟩
    refine (aux_jsContainsKey_iff _ _).mpr ⟨p2, hp2, ?_⟩
    have : q.1 = p1.1 := by rw [he1]
    rw [← he2, ← this, hqk]

/-- C3 witness: the characterization applied to a GPS-free dictionary with
a preexisting boolean GPSCoordinates entry. -/
theorem C3_resolver_null_characterization_witness :
    MetadataService.processLocationCoordinates [("GPSCoordinates", JSValue.bool true)]
      = .ok none ∧
    gpsMissingOrMalformed [("GPSCoordinates", JSValue.bool true)] = true ∧
    jsContainsKey [("GPSCoordinates", JSValue.bool true)] "GPSCoordinates" = true :=
  ⟨(C3_resolver_null_characterization.1 _).mpr rfl,
   rfl,
   C3_resolver_null_characterization.2
     [("GPSCoordinates", JSValue.bool true)] [("GPSCoordinates", JSValue.bool true)]
     rfl rfl rfl⟩

/-- C7 counterexample: a typed binary buffer view nested inside a tag
envelope's value field survives into the output: the top-level filter only
removes binary views that appear directly as entry values, while the
envelope unwrapping then surfaces the nested view. -/
theorem C7_counterexample :
    MetadataService.cleanMetadata exC7
      = .ok [("Thumbnail", JSValue.binview [⟨1, 1⟩, ⟨2, 1⟩])] ∧
    jsIsView (JSValue.binview [⟨1, 1⟩, ⟨2, 1⟩]) = true :=
  ⟨rfl, rfl⟩

/-- C7 amended: the display mapping never contains the key base64
(regardless of that entry's value); and top-level binary views never
survive — the output is view-free whenever no tag envelope unwraps to a
binary view (the unwrapped values of the input are view-free), the GPS
augmentation values never being views. -/
theorem C7_no_base64_and_binary_views :
    ∀ raw out : MetadataData, MetadataService.cleanMetadata raw = .ok out →
      jsContainsKey out "base64" = false ∧
      ((∀ p ∈ raw, jsIsView (MetadataService.unwrapValue (p : String × JSValue).2) = false) →
        ∀ p ∈ out, jsIsView (p : String × JSValue).2 = false) := by
  intro raw out hclean
  have hout : ∀ q ∈ out,
      (∃ p ∈ raw, q.1 = p.1 ∧ (q : String × JSValue).2 = MetadataService.unwrapValue p.2 ∧
        MetadataService.keepEntry p.1 p.2 = true) ∨
      (q.1 = "GPSLatitude" ∧ ∃ x, q.2 = optNumToJS x) ∨
      (q.1 = "GPSLongitude" ∧ ∃ x, q.2 = optNumToJS x) ∨
      (q.1 = "GPSCoordinates" ∧
        ∃ loc, q.2 = MetadataService.coordToJSValue loc) := by
    have hchase : ∀ q ∈ (raw.foldl (fun acc kv =>
          if MetadataService.keepEntry kv.1 kv.2 then jsSet acc kv.1 kv.2 else acc)
          []).foldl (fun acc kv =>
          jsSet acc kv.1 (MetadataService.unwrapValue kv.2)) [],
        ∃ p ∈ raw, (q : String × JSValue).1 = p.1 ∧
          q.2 = MetadataService.unwrapValue p.2 ∧
          MetadataService.keepEntry p.1 p.2 = true := by
      intro q hq
      rcases aux_mem_fold2 _ q hq with ⟨p1, hp1, he1⟩
      rcases aux_mem_fold1 _ p1 hp1 with ⟨p2, hp2, he2, hk2⟩
      subst he2
      exact ⟨p1, hp2, by rw [he1], by rw [he1], hk2⟩
    unfold MetadataService.cleanMetadata at hclean
    rcases hres : MetadataService.processLocationCoordinates raw with e | locO
    · rw [hres] at hclean
      exact absurd hclean (by simp)
    · rw [hres] at hclean
      cases locO with
      | none =>
          simp only [Except.ok.injEq] at hclean
          subst hclean
          intro q hq
          exact Or.inl (hchase q hq)
      | some loc =>
          simp only [Except.ok.injEq] at hclean
          subst hclean
          intro q hq
          rcases aux_mem_jsSet _ _ _ _ hq with hq | hq
          · rcases aux_mem_jsSet _ _ _ _ hq with hq | hq
            · rcases aux_mem_jsSet _ _ _ _ hq with hq | hq
              · exact Or.inl (hchase q hq)
              · exact Or.inr (Or.inl ⟨by rw [hq], loc.latitude, by rw [hq]⟩)
            · exact Or.inr (Or.inr (Or.inl ⟨by rw [hq], loc.longitude, by rw [hq]⟩))
          · exact Or.inr (Or.inr (Or.inr ⟨by rw [hq], loc, by rw [hq]⟩))
  constructor
  · cases hcb : jsContainsKey out "base64" with
    | false => rfl
    | true =>
        exfalso
        rcases (aux_jsContainsKey_iff _ _).mp hcb with ⟨q, hq, hq1⟩
        rcases hout q hq with ⟨p, _, he1, _, hk⟩ | ⟨h1, _⟩ | ⟨h1, _⟩ | ⟨h1, _⟩
        · simp only [MetadataService.keepEntry, Bool.and_eq_true] at hk
          have : p.1 ≠ "base64" := bne_iff_ne.mp hk.1
          exact this (by rw [← he1, hq1])
        · rw [h1] at hq1
          exact absurd hq1 (by decide)
        · rw [h1] at hq1
          exact absurd hq1 (by decide)
        · rw [h1] at hq1
          exact absurd hq1 (by decide)
  · intro hviews q hq
    rcases hout q hq with ⟨p, hp, _, he2, _⟩ | ⟨_, x, he2⟩ | ⟨_, x, he2⟩ | ⟨_, loc, he2⟩
    · rw [he2]
      exact hviews p hp
    · rw [he2]
      exact aux_isView_optNum x
    · rw [he2]
      exact aux_isView_optNum x
    · rw [he2]
      exact aux_isView_coord loc

/-- C7 witness: the amended theorem applied to a dictionary with a base64
entry and a described Make tag. -/
theorem C7_no_base64_and_binary_views_witness :
    MetadataService.cleanMetadata exC7w = .ok [("Make", JSValue.str "Canon")] ∧
    jsContainsKey [("Make", JSValue.str "Canon")] "base64" = false ∧
    (∀ p ∈ ([("Make", JSValue.str "Canon")] : MetadataData),
      jsIsView (p : String × JSValue).2 = false) :=
  ⟨rfl,
   (C7_no_base64_and_binary_views exC7w [("Make", JSValue.str "Canon")] rfl).1,
   (C7_no_base64_and_binary_views exC7w [("Make", JSValue.str "Canon")] rfl).2
     (by decide)⟩

/-- C8 counterexample: an entry whose value is null is dropped by the
binary filter (the filter keeps an object-typed value only when it is not
null), so it does not appear in the output, refuting the claim that null
values are copied through. -/
theorem C8_counterexample :
    MetadataService.cleanMetadata exC8 = .ok ([] : MetadataData) ∧
    jsFind ([] : MetadataData) "Artist" = none ∧
    ("Artist", JSValue.null) ∈ exC8 ∧ jsIsView JSValue.null = false :=
  ⟨rfl, rfl, List.mem_singleton.mpr rfl, rfl⟩

/-- C8 amended: every input entry whose key is not base64 and whose value
is neither a binary buffer view nor null appears in the output with the
unwrapped value (the description field of an envelope, else its value
field, else the value unchanged) — except that the keys GPSLatitude,
GPSLongitude and GPSCoordinates are overwritten by the geolocation
augmentation when the resolver returns a coordinate. -/
theorem C8_entry_passthrough :
    ∀ (raw out : MetadataData) (k : String) (v : JSValue),
      (raw.map Prod.fst).Nodup →
      MetadataService.cleanMetadata raw = .ok out →
      (k, v) ∈ raw → k ≠ "base64" → jsIsView v = false → jsIsNull v = false →
      (MetadataService.processLocationCoordinates raw = .ok none ∨
        (k ≠ "GPSLatitude" ∧ k ≠ "GPSLongitude" ∧ k ≠ "GPSCoordinates")) →
      jsFind out k = some (MetadataService.unwrapValue v) := by
  intro raw out k v hnd hclean hmem hk hview hnull hgps
  have hkeep : MetadataService.keepEntry k v = true := aux_keep_of k v hk hnull hview
  have hnd2 : ((raw.filter (fun kv => MetadataService.keepEntry kv.1 kv.2)).map
      Prod.fst).Nodup := aux_filter_keys_nodup _ raw hnd
  have hfind : jsFind ((raw.filter (fun kv => MetadataService.keepEntry kv.1 kv.2)).map
      (fun kv => (kv.1, MetadataService.unwrapValue kv.2))) k
      = some (MetadataService.unwrapValue v) := by
    apply aux_jsFind_of_mem
    · rw [aux_unwrap_keys]
      exact hnd2
    · exact List.mem_map.mpr ⟨(k, v), List.mem_filter.mpr ⟨hmem, hkeep⟩, rfl⟩
  unfold MetadataService.cleanMetadata at hclean
  rcases hres : MetadataService.processLocationCoordinates raw with e | locO
  · rw [hres] at hclean
    exact absurd hclean (by simp)
  · rw [hres] at hclean
    cases locO with
    | none =>
        simp only [Except.ok.injEq] at hclean
        subst hclean
        rw [aux_filtered_eq raw hnd, aux_cleaned_eq _ hnd2]
        exact hfind
    | some loc =>
        rcases hgps with hgps | ⟨hk1, hk2, hk3⟩
        · rw [hres] at hgps
          exact absurd hgps (by simp)
        · simp only [Except.ok.injEq] at hclean
          subst hclean
          rw [aux_jsFind_jsSet_other _ _ _ _ hk3, aux_jsFind_jsSet_other _ _ _ _ hk2,
              aux_jsFind_jsSet_other _ _ _ _ hk1,
              aux_filtered_eq raw hnd, aux_cleaned_eq _ hnd2]
          exact hfind

/-- C8 witness: the amended theorem applied to a dictionary with a single
envelope entry carrying both description and value fields; the description
is preferred. -/
theorem C8_entry_passthrough_witness :
    MetadataService.cleanMetadata exC8w = .ok [("Model", JSValue.str "X100")] ∧
    MetadataService.unwrapValue
        (JSValue.obj [("description", JSValue.str "X100"), ("value", JSValue.num ⟨7, 1⟩)])
      = JSValue.str "X100" ∧
    jsFind [("Model", JSValue.str "X100")] "Model"
      = some (MetadataService.unwrapValue
          (JSValue.obj [("description", JSValue.str "X100"), ("value", JSValue.num ⟨7, 1⟩)])) :=
  ⟨rfl, rfl,
   C8_entry_passthrough exC8w [("Model", JSValue.str "X100")] "Model"
     (JSValue.obj [("description", JSValue.str "X100"), ("value", JSValue.num ⟨7, 1⟩)])
     (by decide) rfl (List.mem_singleton.mpr rfl) (by decide) rfl rfl
     (Or.inl rfl)⟩

/-- C9 counterexample: a dictionary with one null-valued entry has no
base64 key and no binary views, and null is a value the normalizer itself
can emit (an envelope whose value field is null unwraps to null), yet
normalizing it drops the entry: the output is empty and differs from the
input beyond any GPS keys. -/
theorem C9_counterexample :
    MetadataService.cleanMetadata exC9 = .ok ([] : MetadataData) ∧
    displayShaped JSValue.null = true ∧ jsIsView JSValue.null = false ∧
    MetadataService.cleanMetadata exC9 ≠ .ok exC9 := by
  refine ⟨rfl, rfl, rfl, ?_⟩
  intro h
  rw [show MetadataService.cleanMetadata exC9 = .ok ([] : MetadataData) from rfl] at h
  simp [exC9] at h

/-- C9 amended: normalization is idempotent on dictionaries already in
display shape, provided additionally that no entry value is null (the
filter silently drops null values): for such dictionaries cleanMetadata
returns the input exactly — the resolver finds no array-valued GPS value
field in a display-shaped dictionary, so no GPS key is added or
overwritten either. -/
theorem C9_idempotent_on_display_shape :
    ∀ raw : MetadataData, (raw.map Prod.fst).Nodup →
      (∀ p ∈ raw, (p : String × JSValue).1 ≠ "base64" ∧ jsIsNull p.2 = false ∧
        jsIsView p.2 = false ∧ displayShaped p.2 = true) →
      MetadataService.cleanMetadata raw = .ok raw := by
  intro raw hnd hsh
  have hres : MetadataService.processLocationCoordinates raw = .ok none := by
    rw [aux_resolver_null_iff]
    unfold gpsMissingOrMalformed
    rw [aux_no_value_array raw (fun p hp => (hsh p hp).2.2.2) "GPSLatitude"]
    simp
  have hfilter : raw.filter (fun kv => MetadataService.keepEntry kv.1 kv.2) = raw :=
    List.filter_eq_self.mpr (fun p hp =>
      aux_keep_of p.1 p.2 (hsh p hp).1 (hsh p hp).2.1 (hsh p hp).2.2.1)
  have hmapu : raw.map (fun kv => (kv.1, MetadataService.unwrapValue kv.2)) = raw :=
    aux_map_of_forall_eq _ raw (fun p hp => by rw [aux_unwrap_id p.2 (hsh p hp).2.2.2])
  unfold MetadataService.cleanMetadata
  simp only [hres, aux_filtered_eq raw hnd, hfilter, aux_cleaned_eq raw hnd, hmapu]

/-- C9 witness: the amended idempotence applied to a two-entry dictionary
already in display shape. -/
theorem C9_idempotent_on_display_shape_witness :
    (exC9w.map Prod.fst).Nodup ∧
    (∀ p ∈ exC9w, (p : String × JSValue).1 ≠ "base64" ∧ jsIsNull p.2 = false ∧
      jsIsView p.2 = false ∧ displayShaped p.2 = true) ∧
    MetadataService.cleanMetadata exC9w = .ok exC9w :=
  ⟨by decide, by decide, C9_idempotent_on_display_shape exC9w (by decide) (by decide)⟩

/-- C10: the raw dictionary surfaced by parseMetadata is the decoder
output with the entry keyed base64 removed and every other entry passed
through untouched; the pair returned by parseMetadata carries exactly this
dictionary as its raw component. -/
theorem C10_rawData_strips_base64 :
    ∀ tags : MetadataData, (tags.map Prod.fst).Nodup →
      jsFind (MetadataService.rawDataForDisplay tags) "base64" = none ∧
      (∀ k : String, k ≠ "base64" →
        jsFind (MetadataService.rawDataForDisplay tags) k = jsFind tags k) ∧
      (∀ pr : MetadataData × MetadataData,
        MetadataService.parseMetadataFromTags tags = .ok pr →
        pr.1 = MetadataService.rawDataForDisplay tags) := by
  intro tags hnd
  have hd : MetadataService.rawDataForDisplay tags
      = tags.filter (fun kv => kv.1 != "base64") := by
    unfold MetadataService.rawDataForDisplay
    exact aux_display_eq tags hnd
  refine ⟨?_, ?_, ?_⟩
  · rw [hd, aux_jsFind_eq_none]
    intro p hp
    exact bne_iff_ne.mp (List.mem_filter.mp hp).2
  · intro k hk
    rw [hd]
    apply aux_find_filter
    intro p hpk
    rw [hpk]
    exact bne_iff_ne.mpr hk
  · intro pr hpr
    unfold MetadataService.parseMetadataFromTags at hpr
    rcases hc : MetadataService.cleanMetadata tags with e | c
    · rw [hc] at hpr
      exact absurd hpr (by simp)
    · rw [hc] at hpr
      simp only [Except.ok.injEq] at hpr
      rw [← hpr]

/-- C10 witness: the theorem applied to a decoder output holding a base64
entry next to an ordinary tag. -/
theorem C10_rawData_strips_base64_witness :
    jsFind (MetadataService.rawDataForDisplay exC10w) "base64" = none ∧
    jsFind (MetadataService.rawDataForDisplay exC10w) "Make" = jsFind exC10w "Make" ∧
    ((([("Make", JSValue.str "Canon")], [("Make", JSValue.str "Canon")]) :
        MetadataData × MetadataData)).1 = MetadataService.rawDataForDisplay exC10w :=
  ⟨(C10_rawData_strips_base64 exC10w (by decide)).1,
   (C10_rawData_strips_base64 exC10w (by decide)).2.1 "Make" (by decide),
   (C10_rawData_strips_base64 exC10w (by decide)).2.2
     ([("Make", JSValue.str "Canon")], [("Make", JSValue.str "Canon")]) rfl⟩
